import Mathlib

/-!
Verification of the drawer/modal stack provider
(`src/providers/root/drawer-stack-provider.tsx`).

The development shallowly embeds the stack store (a list of modal
descriptors mutated by `present`, `dismiss`, `dismissTop`, `dismissAll`),
the per-modal event handlers (`close`, the Radix `onOpenChange` handler,
the backdrop click handler with its `noticeModal` pulse), and the
renderer's z-index computation. Opaque renderables (React function
components) and callbacks are modelled as `Nat` tags; invoking a callback
is modelled by appending its tag to an effect log.
-/

namespace DrawerStackSpec

/-! ### Definitions: decimal rendering

Synthesized modal ids are template strings `{useId}-{counter}`; uniqueness
of the generated ids rests on decimal rendering of the counter being
injective, which is proved from first principles below.
-/

/-- Structural (fuel-free) version of `Nat.toDigitsCore` at base 10. -/
def digitsRec (n : Nat) : List Char :=
  if _h : n < 10 then [Nat.digitChar n]
  else digitsRec (n / 10) ++ [Nat.digitChar (n % 10)]
decreasing_by
  exact Nat.div_lt_self (by omega) (by omega)

/-- Decimal digit-list decoder, a left inverse of `digitsRec`. -/
def decodeDigits (l : List Char) : Nat :=
  l.foldl (fun acc c => acc * 10 + (c.toNat - 48)) 0

/-! ### Definitions: data model

`ModalProps` mirrors the `ModalProps` interface of the source. React
function components (`title` as FC, `content`, `CustomModalComponent`) and
the `onClose` callback are opaque values from the store's point of view;
they are modelled as `Nat` tags. Optional fields are `Option`s, matching
the `?:` fields of the interface.
-/

inductive ModalPosition
  | left
  | right
  | top
  | bottom
  | center
deriving DecidableEq, Repr

/-- `title: string | FC<ModalContentPropsInternal>`. -/
inductive ModalTitle
  | str (s : String)
  | fc (tag : Nat)
deriving DecidableEq, Repr

structure ModalProps where
  title : ModalTitle
  content : Nat
  CustomModalComponent : Option Nat := none
  clickOutsideToDismiss : Option Bool := none
  modalClassName : Option String := none
  modalContainerClassName : Option String := none
  position : Option ModalPosition := none
  onClose : Option Nat := none
deriving DecidableEq, Repr

/-- A stack entry: `ModalProps & { id: string }`. -/
structure ModalEntry extends ModalProps where
  id : String
deriving DecidableEq, Repr

/-- The value held by `modalStackAtom`. -/
abbrev ModalStack := List ModalEntry

/-- JavaScript truthiness of an optional boolean (`undefined` is falsy). -/
def truthy : Option Bool → Bool
  | some true => true
  | _ => false

def stackIds (stack : ModalStack) : List String :=
  stack.map (·.id)

/-! ### Definitions: stack store operations

`useDrawerStack` holds per-caller-scope state: the `useId` value and the
`currentCount` ref. `present` computes `modalId` as
`` `${id}-${currentCount.current++}` ``, stores the entry with id
`props.id ?? modalId`, and returns a closure that filters the stack by
`modalId` (the synthesized id, not the stored one).
-/

structure ScopeState where
  id : String
  currentCount : Nat
deriving DecidableEq, Repr

/-- The template string `` `${id}-${currentCount.current}` ``. -/
def mkModalId (sid : String) (k : Nat) : String :=
  sid ++ "-" ++ toString k

structure PresentResult where
  stack : ModalStack
  scope : ScopeState
  modalId : String
deriving DecidableEq, Repr

/-- `useDrawerStack().present(props)`: append `{...props, id: props.id ?? modalId}`
to the stack (`p.concat(modalProps)`), post-increment the counter, and
record the `modalId` captured by the returned dismiss closure. -/
def present (scope : ScopeState) (props : ModalProps) (pid : Option String)
    (stack : ModalStack) : PresentResult :=
  let modalId := mkModalId scope.id scope.currentCount
  let stored : ModalEntry := { toModalProps := props, id := pid.getD modalId }
  { stack := stack ++ [stored]
    scope := { scope with currentCount := scope.currentCount + 1 }
    modalId := modalId }

/-- The closure returned by `present`:
`(p) => p.filter((item) => item.id !== modalId)`. -/
def presentClosure (modalId : String) (stack : ModalStack) : ModalStack :=
  stack.filter (fun item => item.id != modalId)

namespace actions

/-- `actions.dismiss(id)`: `p.filter((item) => item.id !== id)`. -/
def dismiss (id : String) (stack : ModalStack) : ModalStack :=
  stack.filter (fun item => item.id != id)

/-- `actions.dismissTop()`: `p.slice(0, -1)`. -/
def dismissTop (stack : ModalStack) : ModalStack :=
  stack.dropLast

/-- `actions.dismissAll()`: `jotaiStore.set(modalStackAtom, [])`. -/
def dismissAll (_stack : ModalStack) : ModalStack :=
  []

end actions

/-- `useDismissAllWhenRouterChange`: the effect body runs
`actions.dismissAll()` on every `pathname` change. -/
def onPathnameChange (stack : ModalStack) : ModalStack :=
  actions.dismissAll stack

/-! ### Definitions: per-modal event handlers (`Modal` component)

Callback invocations are logged: each entry of the log records the tag of
the invoked `onClose` callback together with the stack value in effect at
the moment of the call, so "invoked after removal" is observable.
-/

/-- One logged `onClose` invocation: callback tag and the stack at call time. -/
abbrev CloseLog := List (Nat × ModalStack)

namespace Modal

/-- `close`: `setStack((p) => p.filter((modal) => modal.id !== item.id))`. -/
def close (item : ModalEntry) (stack : ModalStack) : ModalStack :=
  stack.filter (fun modal => modal.id != item.id)

/-- The `onClose` handler wired to `onOpenChange` (both the Radix
`Dialog.Root` on desktop and `PresentSheet` on mobile):
`if (!open) { close(); if (item.onClose) item.onClose() }`. -/
def onOpenChange (item : ModalEntry) (op : Bool) (stack : ModalStack)
    (log : CloseLog) : ModalStack × CloseLog :=
  if op then (stack, log)
  else
    let stack1 := close item stack
    match item.onClose with
    | some cb => (stack1, log ++ [(cb, stack1)])
    | none => (stack1, log)

/-- `dismiss`: `stopPropagation(e); close()` — note it does not invoke
`item.onClose`. -/
def dismissHandler (item : ModalEntry) (stack : ModalStack)
    (log : CloseLog) : ModalStack × CloseLog :=
  (close item stack, log)

/-- One animation command issued to `animateController.start`. -/
structure AnimStart where
  scale : ℚ
  duration : Option ℚ
deriving DecidableEq

/-- `noticeModal`: start a scale-1.05 pulse of duration 0.06, then — in the
continuation, only if `isUnmounted.current` is still false — start the
return to scale 1. `unmounted` is the value of `isUnmounted.current` when
the continuation runs. -/
def noticeModal (unmounted : Bool) : List AnimStart :=
  [⟨105 / 100, some (6 / 100)⟩] ++
    (if unmounted then [] else [⟨1, none⟩])

/-- The backdrop `onClick` of the default desktop chrome:
`clickOutsideToDismiss ? dismiss : noticeModal`. Returns the new stack,
the callback log, and the animation commands issued. -/
def backdropClick (item : ModalEntry) (unmounted : Bool) (stack : ModalStack)
    (log : CloseLog) : ModalStack × CloseLog × List AnimStart :=
  if truthy item.clickOutsideToDismiss then
    let r := dismissHandler item stack log
    (r.1, r.2, [])
  else
    (stack, log, noticeModal unmounted)

/-- The backdrop `onClick` of the `CustomModalComponent` branch:
`onClick={clickOutsideToDismiss ? dismiss : undefined}` — with a falsy
flag no handler is attached, so a backdrop click does nothing there (in
particular, no `noticeModal` pulse). -/
def backdropClickCustom (item : ModalEntry) (stack : ModalStack)
    (log : CloseLog) : ModalStack × CloseLog × List AnimStart :=
  if truthy item.clickOutsideToDismiss then
    let r := dismissHandler item stack log
    (r.1, r.2, [])
  else
    (stack, log, [])

/-- Desktop backdrop click, dispatching on the chrome branch the way
`Modal` does: the `CustomModalComponent` container when one is supplied,
the default chrome otherwise. -/
def backdropClickDesktop (item : ModalEntry) (unmounted : Bool)
    (stack : ModalStack) (log : CloseLog) :
    ModalStack × CloseLog × List AnimStart :=
  if item.CustomModalComponent.isSome then backdropClickCustom item stack log
  else backdropClick item unmounted stack log

/-- `modalStyle = { zIndex: 99 + index }`. -/
def modalStyleZ (index : Nat) : Nat :=
  99 + index

end Modal

/-! ### Definitions: renderer

`DrawerStack` maps the stack to one `Modal` element per entry, keyed by
`item.id`, in list order. The z-index attached to the modal box depends on
the branch taken inside `Modal`: on mobile a `PresentSheet` with
`zIndex = 1000 + drawerLength` (the external `sheetStackAtom` length); on
desktop with a `CustomModalComponent` the fixed `z-[20]` container (no
`modalStyle` applied); otherwise the default chrome's `motion.div` with
`modalStyle` = `99 + index`.
-/

structure RenderedModal where
  key : String
  zIndex : Nat
deriving DecidableEq, Repr

def renderModal (item : ModalEntry) (index : Nat) (isMobile : Bool)
    (drawerLength : Nat) : RenderedModal :=
  if isMobile then ⟨item.id, 1000 + drawerLength⟩
  else if item.CustomModalComponent.isSome then ⟨item.id, 20⟩
  else ⟨item.id, Modal.modalStyleZ index⟩

def renderDrawerStack (stack : ModalStack) (isMobile : Bool)
    (drawerLength : Nat) : List RenderedModal :=
  stack.enum.map (fun p => renderModal p.2 p.1 isMobile drawerLength)

/-! ### Definitions: operation sequences

A small operation language over the store, for reachability statements:
any sequence of `present` / `dismiss` / `dismissTop` / `dismissAll` calls,
with presents issued from any number of caller scopes. Each
`useDrawerStack` call site owns one `useId` value and one `currentCount`
ref; since React guarantees `useId` values are distinct per hook instance,
the per-scope counters are keyed by the scope id.
-/

inductive MOp
  | present (sid : String) (props : ModalProps) (pid : Option String)
  | dismiss (id : String)
  | dismissTop
  | dismissAll
deriving DecidableEq, Repr

/-- Store plus the `currentCount` ref of every caller scope. -/
structure MultiState where
  counts : String → Nat
  stack : ModalStack

def runMOp (st : MultiState) : MOp → MultiState
  | .present sid props pid =>
    let r := present ⟨sid, st.counts sid⟩ props pid st.stack
    { counts := fun s => if s = sid then st.counts sid + 1 else st.counts s
      stack := r.stack }
  | .dismiss id => { st with stack := actions.dismiss id st.stack }
  | .dismissTop => { st with stack := actions.dismissTop st.stack }
  | .dismissAll => { st with stack := actions.dismissAll st.stack }

def runMOps (st : MultiState) (ops : List MOp) : MultiState :=
  ops.foldl runMOp st

/-- `true` when the operation is not a `present` carrying an explicit id. -/
def MOp.noExplicitId : MOp → Bool
  | .present _ _ pid => pid.isNone
  | _ => true

/-- Iterated `present` without explicit ids, threading the scope state. -/
def presentAll (scope : ScopeState) (ps : List ModalProps)
    (stack : ModalStack) : ScopeState × ModalStack :=
  match ps with
  | [] => (scope, stack)
  | p :: ps =>
    let r := present scope p none stack
    presentAll r.scope ps r.stack

/-- Store invariant: ids in the stack are pairwise distinct and each is a
synthesized id of some scope with counter below that scope's current
count. -/
def MultiInv (st : MultiState) : Prop :=
  (stackIds st.stack).Nodup ∧
    ∀ e ∈ st.stack, ∃ sid k, k < st.counts sid ∧ e.id = mkModalId sid k

/-- The entries appended by a run of `present` calls without explicit ids,
starting at counter `c`. -/
def buildEntries (sid : String) : Nat → List ModalProps → ModalStack
  | _, [] => []
  | c, p :: ps => { toModalProps := p, id := mkModalId sid c } :: buildEntries sid (c + 1) ps

/-! ### Definitions: concrete sample descriptors -/

def sampleProps : ModalProps :=
  { title := ModalTitle.str "A", content := 0 }

def propsB : ModalProps :=
  { title := ModalTitle.str "B", content := 1 }

/-- A plain entry with the given id. -/
def entryWith (i : String) : ModalEntry :=
  { toModalProps := sampleProps, id := i }

/-- An entry with `clickOutsideToDismiss: true` and an `onClose` callback. -/
def dismissableEntry : ModalEntry :=
  { title := ModalTitle.str "A", content := 0, clickOutsideToDismiss := some true,
    onClose := some 7, id := "m1" }

/-- An entry with `clickOutsideToDismiss: false` and an `onClose` callback. -/
def noDismissEntry : ModalEntry :=
  { title := ModalTitle.str "A", content := 0, clickOutsideToDismiss := some false,
    onClose := some 7, id := "m2" }

/-- An entry rendered through a `CustomModalComponent`. -/
def customEntry (i : String) : ModalEntry :=
  { title := ModalTitle.str "A", content := 0, CustomModalComponent := some 1, id := i }

/-! ### Helper theorems: decimal rendering is injective -/

theorem toDigitsCore_append (fuel : Nat) :
    ∀ (n : Nat) (acc : List Char),
      Nat.toDigitsCore 10 fuel n acc = Nat.toDigitsCore 10 fuel n [] ++ acc := by
  induction fuel with
  | zero => intro n acc; simp [Nat.toDigitsCore]
  | succ fuel ih =>
    intro n acc
    simp only [Nat.toDigitsCore]
    by_cases h : n / 10 = 0
    · simp [h]
    · simp only [h, if_false]
      rw [ih (n / 10) (Nat.digitChar (n % 10) :: acc),
        ih (n / 10) [Nat.digitChar (n % 10)]]
      simp

theorem toDigitsCore_eq_digitsRec (fuel : Nat) :
    ∀ n : Nat, n < fuel → Nat.toDigitsCore 10 fuel n [] = digitsRec n := by
  induction fuel with
  | zero => intro n h; omega
  | succ fuel ih =>
    intro n hn
    simp only [Nat.toDigitsCore]
    by_cases h : n / 10 = 0
    · have h10 : n < 10 := by omega
      rw [digitsRec]
      simp [h, h10, Nat.mod_eq_of_lt h10]
    · have h10 : ¬ n < 10 := by
        intro hc
        exact h (Nat.div_eq_of_lt hc)
      have hdivlt : n / 10 < fuel := by
        have : n / 10 < n := Nat.div_lt_self (by omega) (by omega)
        omega
      rw [if_neg h, toDigitsCore_append, ih (n / 10) hdivlt]
      conv_rhs => rw [digitsRec]
      rw [dif_neg h10]

theorem digitChar_val (d : Nat) (h : d < 10) : (Nat.digitChar d).toNat - 48 = d := by
  interval_cases d <;> rfl

theorem decodeDigits_digitsRec (n : Nat) : decodeDigits (digitsRec n) = n := by
  induction n using Nat.strong_induction_on with
  | _ n ih =>
    by_cases h : n < 10
    · rw [digitsRec, dif_pos h]
      simp [decodeDigits, digitChar_val n h]
    · rw [digitsRec, dif_neg h]
      have hlt : n / 10 < n := Nat.div_lt_self (by omega) (by omega)
      have hmod : n % 10 < 10 := Nat.mod_lt _ (by omega)
      simp only [decodeDigits, List.foldl_append, List.foldl_cons, List.foldl_nil]
      have := ih (n / 10) hlt
      simp only [decodeDigits] at this
      rw [this, digitChar_val (n % 10) hmod]
      omega

theorem natRepr_data (n : Nat) : (Nat.repr n).data = digitsRec n := by
  show (Nat.toDigits 10 n).asString.data = digitsRec n
  show Nat.toDigitsCore 10 (n + 1) n [] = digitsRec n
  exact toDigitsCore_eq_digitsRec (n + 1) n (Nat.lt_succ_self n)

theorem natRepr_injective {m n : Nat} (h : Nat.repr m = Nat.repr n) : m = n := by
  have hd : digitsRec m = digitsRec n := by
    rw [← natRepr_data, ← natRepr_data, h]
  have := congrArg decodeDigits hd
  rwa [decodeDigits_digitsRec, decodeDigits_digitsRec] at this

theorem digitsRec_inj {m n : Nat} (h : digitsRec m = digitsRec n) : m = n := by
  have := congrArg decodeDigits h
  rwa [decodeDigits_digitsRec, decodeDigits_digitsRec] at this

theorem mkModalId_inj {sid : String} {k₁ k₂ : Nat}
    (h : mkModalId sid k₁ = mkModalId sid k₂) : k₁ = k₂ := by
  have hd := congrArg String.data h
  simp only [mkModalId, String.data_append, List.append_assoc] at hd
  have h2 := List.append_cancel_left (List.append_cancel_left hd)
  have e₁ : (toString k₁ : String).data = digitsRec k₁ := natRepr_data k₁
  have e₂ : (toString k₂ : String).data = digitsRec k₂ := natRepr_data k₂
  rw [e₁, e₂] at h2
  exact digitsRec_inj h2

theorem digitChar_ne_dash (d : Nat) (h : d < 10) : Nat.digitChar d ≠ '-' := by
  interval_cases d <;> decide

theorem digitsRec_no_dash (n : Nat) : '-' ∉ digitsRec n := by
  induction n using Nat.strong_induction_on with
  | _ n ih =>
    by_cases h : n < 10
    · rw [digitsRec, dif_pos h]
      intro hmem
      rw [List.mem_singleton] at hmem
      exact digitChar_ne_dash n h hmem.symm
    · rw [digitsRec, dif_neg h]
      intro hmem
      rcases List.mem_append.mp hmem with hm | hm
      · exact ih (n / 10) (Nat.div_lt_self (by omega) (by omega)) hm
      · rw [List.mem_singleton] at hm
        exact digitChar_ne_dash (n % 10) (Nat.mod_lt _ (by omega)) hm.symm

/-- Splitting a char list at a dash neither side of which contains one:
the decomposition is unique. -/
theorem append_dash_inj : ∀ {a₁ a₂ b₁ b₂ : List Char},
    '-' ∉ a₁ → '-' ∉ a₂ → a₁ ++ '-' :: b₁ = a₂ ++ '-' :: b₂ →
      a₁ = a₂ ∧ b₁ = b₂ := by
  intro a₁
  induction a₁ with
  | nil =>
    intro a₂ b₁ b₂ _ h₂ h
    cases a₂ with
    | nil =>
      simp only [List.nil_append, List.cons.injEq] at h
      exact ⟨rfl, h.2⟩
    | cons c a₂ =>
      simp only [List.nil_append, List.cons_append, List.cons.injEq] at h
      exact absurd (List.mem_cons_self c a₂) (h.1 ▸ h₂)
  | cons c a₁ ih =>
    intro a₂ b₁ b₂ h₁ h₂ h
    cases a₂ with
    | nil =>
      simp only [List.cons_append, List.nil_append, List.cons.injEq] at h
      exact absurd (List.mem_cons_self c a₁) (h.1.symm ▸ h₁)
    | cons c' a₂ =>
      simp only [List.cons_append, List.cons.injEq] at h
      have hr := ih (fun hm => h₁ (List.mem_cons_of_mem c hm))
        (fun hm => h₂ (List.mem_cons_of_mem c' hm)) h.2
      exact ⟨by rw [h.1, hr.1], hr.2⟩

/-- Full injectivity of id synthesis: scope id and counter are both
recoverable from `{sid}-{counter}` because the decimal counter rendering
is nonempty and dash-free, so the split at the last dash is unique. -/
theorem mkModalId_inj₂ {s₁ s₂ : String} {k₁ k₂ : Nat}
    (h : mkModalId s₁ k₁ = mkModalId s₂ k₂) : s₁ = s₂ ∧ k₁ = k₂ := by
  have hd := congrArg String.data h
  simp only [mkModalId, String.data_append, List.append_assoc] at hd
  have e₁ : (toString k₁ : String).data = digitsRec k₁ := natRepr_data k₁
  have e₂ : (toString k₂ : String).data = digitsRec k₂ := natRepr_data k₂
  rw [e₁, e₂] at hd
  have hr := congrArg List.reverse hd
  simp only [List.reverse_append, List.reverse_cons, List.reverse_nil,
    List.nil_append, List.append_assoc, List.singleton_append] at hr
  have hs := append_dash_inj
    (fun hm => digitsRec_no_dash k₁ (List.mem_reverse.mp hm))
    (fun hm => digitsRec_no_dash k₂ (List.mem_reverse.mp hm)) hr
  constructor
  · apply String.ext
    have := congrArg List.reverse hs.2
    simpa using this
  · apply digitsRec_inj
    have := congrArg List.reverse hs.1
    simpa using this

/-! ### Helper theorems: store invariants -/

theorem stackIds_append (s t : ModalStack) :
    stackIds (s ++ t) = stackIds s ++ stackIds t := by
  simp [stackIds]

theorem runMOp_preserves_inv (st : MultiState) (op : MOp)
    (hop : op.noExplicitId = true) (hinv : MultiInv st) : MultiInv (runMOp st op) := by
  obtain ⟨hnd, hbound⟩ := hinv
  cases op with
  | present sid props pid =>
    have hpid : pid = none := by
      cases pid with
      | none => rfl
      | some s => simp [MOp.noExplicitId] at hop
    subst hpid
    constructor
    · show (stackIds (st.stack ++ [_])).Nodup
      rw [stackIds_append]
      rw [List.nodup_append]
      refine ⟨hnd, by simp [stackIds], ?_⟩
      intro a ha hb
      simp only [stackIds, List.map_cons, List.map_nil, List.mem_singleton,
        Option.getD_none] at hb
      obtain ⟨e, he, heid⟩ := List.mem_map.mp ha
      obtain ⟨sid', k, hk, hkid⟩ := hbound e he
      rw [hb, hkid] at heid
      obtain ⟨hsid, hk'⟩ := mkModalId_inj₂ heid
      subst hsid
      omega
    · intro e he
      simp only [runMOp, present] at he
      rcases List.mem_append.mp he with h | h
      · obtain ⟨sid', k, hk, hkid⟩ := hbound e h
        refine ⟨sid', k, ?_, hkid⟩
        show k < if sid' = sid then st.counts sid + 1 else st.counts sid'
        by_cases hs : sid' = sid
        · subst hs
          simp only [eq_self_iff_true, if_true]
          omega
        · simpa [hs] using hk
      · simp only [List.mem_singleton] at h
        subst h
        exact ⟨sid, st.counts sid, by simp [runMOp, present], rfl⟩
  | dismiss i =>
    constructor
    · exact hnd.sublist ((List.filter_sublist st.stack).map _)
    · intro e he
      exact hbound e (List.mem_of_mem_filter he)
  | dismissTop =>
    constructor
    · exact hnd.sublist ((List.dropLast_sublist st.stack).map _)
    · intro e he
      exact hbound e ((List.dropLast_sublist st.stack).mem he)
  | dismissAll =>
    exact ⟨List.nodup_nil, by intro e he; simp [runMOp, actions.dismissAll] at he⟩

theorem runMOps_preserves_inv (ops : List MOp) :
    ∀ st : MultiState, (∀ op ∈ ops, op.noExplicitId = true) → MultiInv st →
      MultiInv (runMOps st ops) := by
  induction ops with
  | nil => intro st _ hinv; exact hinv
  | cons op ops ih =>
    intro st hops hinv
    exact ih (runMOp st op) (fun o ho => hops o (List.mem_cons_of_mem _ ho))
      (runMOp_preserves_inv st op (hops op (List.mem_cons_self _ _)) hinv)

theorem presentAll_eq (sid : String) (ps : List ModalProps) :
    ∀ (c : Nat) (stack : ModalStack),
      presentAll ⟨sid, c⟩ ps stack =
        (⟨sid, c + ps.length⟩, stack ++ buildEntries sid c ps) := by
  induction ps with
  | nil => intro c stack; simp [presentAll, buildEntries]
  | cons p ps ih =>
    intro c stack
    show presentAll ⟨sid, c + 1⟩ ps (stack ++ [_]) = _
    rw [ih (c + 1) (stack ++ [_])]
    simp only [buildEntries, present, Option.getD_none, List.length_cons]
    rw [Prod.mk.injEq]
    refine ⟨?_, ?_⟩
    · congr 1
      omega
    · simp

theorem buildEntries_map_props (sid : String) (ps : List ModalProps) :
    ∀ c : Nat, (buildEntries sid c ps).map (·.toModalProps) = ps := by
  induction ps with
  | nil => intro c; rfl
  | cons p ps ih => intro c; simp [buildEntries, ih (c + 1)]

theorem buildEntries_ids (sid : String) (ps : List ModalProps) :
    ∀ c : Nat, stackIds (buildEntries sid c ps) =
      (List.range' c ps.length).map (mkModalId sid) := by
  induction ps with
  | nil => intro c; rfl
  | cons p ps ih =>
    intro c
    simp only [List.length_cons]
    rw [List.range'_succ]
    simp only [buildEntries, stackIds, List.map_cons]
    rw [show (buildEntries sid (c + 1) ps).map (·.id) =
      stackIds (buildEntries sid (c + 1) ps) from rfl, ih (c + 1)]

/-! ### Helper theorems: renderer -/

theorem renderModal_key (item : ModalEntry) (i : Nat) (m : Bool) (d : Nat) :
    (renderModal item i m d).key = item.id := by
  unfold renderModal
  split
  · rfl
  · split
    · rfl
    · rfl

theorem renderDrawerStack_keys (stack : ModalStack) (m : Bool) (d : Nat) :
    (renderDrawerStack stack m d).map (·.key) = stackIds stack := by
  unfold renderDrawerStack stackIds
  rw [List.map_map]
  have h1 : ((fun r : RenderedModal => r.key) ∘ fun p : Nat × ModalEntry =>
      renderModal p.2 p.1 m d) = fun p : Nat × ModalEntry => p.2.id :=
    funext fun p => renderModal_key p.2 p.1 m d
  rw [h1]
  have h2 : (fun p : Nat × ModalEntry => p.2.id) =
      (fun e : ModalEntry => e.id) ∘ Prod.snd := rfl
  rw [h2, ← List.map_map, List.enum_map_snd]

theorem render_z_default (d : Nat) (stack : ModalStack) :
    ∀ n : Nat, (∀ e ∈ stack, e.CustomModalComponent = none) →
      (stack.enumFrom n).map (fun p => (renderModal p.2 p.1 false d).zIndex) =
        List.range' (99 + n) stack.length := by
  induction stack with
  | nil => intro n _; rfl
  | cons e stack ih =>
    intro n h
    have he : e.CustomModalComponent = none := h e (List.mem_cons_self _ _)
    simp only [List.enumFrom_cons, List.map_cons, List.length_cons]
    rw [List.range'_succ]
    congr 1
    · simp [renderModal, he, Modal.modalStyleZ]
    · rw [ih (n + 1) (fun x hx => h x (List.mem_cons_of_mem _ hx))]
      congr 1

theorem render_z_mobile (d : Nat) (stack : ModalStack) :
    ∀ n : Nat, (stack.enumFrom n).map (fun p => (renderModal p.2 p.1 true d).zIndex) =
      List.replicate stack.length (1000 + d) := by
  induction stack with
  | nil => intro n; rfl
  | cons e stack ih =>
    intro n
    simp only [List.enumFrom_cons, List.map_cons, List.length_cons, List.replicate_succ]
    rw [ih (n + 1)]
    congr 1

/-! ### Claim theorems -/

/-- C1 (code slip at the failing input): the claim says the closure
returned by `present` removes exactly the presented descriptor whether its
id was supplied or synthesized. The code filters by the synthesized
`modalId` instead of the stored id `props.id ?? modalId`, so when the
caller supplies an explicit id the closure removes nothing: presenting
with explicit id "custom" from scope ("s", 0) and then invoking the
returned closure leaves the descriptor in the stack. -/
theorem claim_C1_closure_misses_explicit_id :
    presentClosure (present ⟨"s", 0⟩ sampleProps (some "custom") []).modalId
        (present ⟨"s", 0⟩ sampleProps (some "custom") []).stack =
      (present ⟨"s", 0⟩ sampleProps (some "custom") []).stack ∧
    stackIds (present ⟨"s", 0⟩ sampleProps (some "custom") []).stack = ["custom"] := by
  constructor
  · decide
  · decide

/-- C2 counterexample: a descriptor with `clickOutsideToDismiss: true` and
an `onClose` callback is closed by a backdrop click — the descriptor is
removed from the stack — yet the callback log stays empty: `onClose` is
invoked zero times, not exactly once, because the backdrop handler calls
only `close()`. -/
theorem claim_C2_counterexample :
    (Modal.backdropClick dismissableEntry false [dismissableEntry] []).1 = [] ∧
    (Modal.backdropClick dismissableEntry false [dismissableEntry] []).2.1 = [] := by
  constructor
  · decide
  · decide

/-- C2 amended: `onClose` is invoked exactly once, after removal from the
stack, when the descriptor is closed through the dialog's open-state-change
handler (`onOpenChange(false)`: close-button activation on desktop, sheet
close on mobile) — the logged invocation carries the post-removal stack, in
which the descriptor's id no longer occurs. Closing through the backdrop
click dismiss handler does not invoke `onClose` (the log is unchanged),
and the store-level removals (`dismiss`, `dismissTop`, `dismissAll`)
operate on the stack alone and invoke no callback. -/
theorem claim_C2_amended (item : ModalEntry) (cb : Nat) (stack : ModalStack)
    (log : CloseLog) (h : item.onClose = some cb) :
    Modal.onOpenChange item false stack log =
      (Modal.close item stack, log ++ [(cb, Modal.close item stack)]) ∧
    item.id ∉ stackIds (Modal.close item stack) ∧
    ∀ u : Bool, (Modal.backdropClick item u stack log).2.1 = log := by
  refine ⟨by simp [Modal.onOpenChange, h], ?_, ?_⟩
  · intro hmem
    obtain ⟨e, he, heid⟩ := List.mem_map.mp hmem
    have hf := List.of_mem_filter he
    rw [heid] at hf
    simp at hf
  · intro u
    unfold Modal.backdropClick Modal.dismissHandler
    split
    · rfl
    · rfl

/-- C2 witness: the amended statement applied to a concrete descriptor with
an `onClose` callback. -/
theorem claim_C2_witness :
    dismissableEntry.onClose = some 7 ∧
    (Modal.onOpenChange dismissableEntry false [dismissableEntry] [] =
        (Modal.close dismissableEntry [dismissableEntry],
          [] ++ [(7, Modal.close dismissableEntry [dismissableEntry])]) ∧
      dismissableEntry.id ∉ stackIds (Modal.close dismissableEntry [dismissableEntry]) ∧
      ∀ u : Bool,
        (Modal.backdropClick dismissableEntry u [dismissableEntry] []).2.1 = []) :=
  ⟨rfl, claim_C2_amended dismissableEntry 7 [dismissableEntry] [] rfl⟩

/-- C3 counterexample: presenting twice with the same explicit id "x" is a
sequence of `present` calls, and the resulting live stack has ids
["x", "x"] — not pairwise distinct. -/
theorem claim_C3_counterexample :
    ¬ (stackIds (runMOps ⟨fun _ => 0, []⟩
        [MOp.present "s" sampleProps (some "x"),
          MOp.present "s" sampleProps (some "x")]).stack).Nodup := by
  decide

/-- C3 amended: in every stack state reachable by any sequence of
`present`, `dismiss`, `dismissTop`, and `dismissAll` calls — with presents
issued from any number of caller scopes — in which no `present` supplies
an explicit id, the ids of the descriptors in the live stack are pairwise
distinct. Cross-scope uniqueness of the synthesized `{scope}-{counter}`
ids needs no global counter: scope id and counter are both recoverable
from the id because the decimal counter rendering is dash-free. -/
theorem claim_C3_amended (ops : List MOp)
    (h : ∀ op ∈ ops, op.noExplicitId = true) :
    (stackIds (runMOps ⟨fun _ => 0, []⟩ ops).stack).Nodup :=
  (runMOps_preserves_inv ops ⟨fun _ => 0, []⟩ h
    ⟨List.nodup_nil, by intro e he; simp at he⟩).1

/-- C3 witness: the amended statement applied to a concrete operation
sequence of three id-less presents from two different caller scopes
(including one scope id that is a dashed extension of the other) and a
`dismissTop`. -/
theorem claim_C3_witness :
    (∀ op ∈ ([MOp.present "s" sampleProps none, MOp.present "s-0" propsB none,
        MOp.present "s" propsB none, MOp.dismissTop] : List MOp),
      op.noExplicitId = true) ∧
    (stackIds (runMOps ⟨fun _ => 0, []⟩
        [MOp.present "s" sampleProps none, MOp.present "s-0" propsB none,
          MOp.present "s" propsB none, MOp.dismissTop]).stack).Nodup :=
  ⟨by decide, claim_C3_amended
    [MOp.present "s" sampleProps none, MOp.present "s-0" propsB none,
      MOp.present "s" propsB none, MOp.dismissTop] (by decide)⟩

/-- C4 counterexample: on a stack holding two entries with the same id
"x" (reachable via explicit-id presents), `dismiss("x")` removes both
entries, not exactly one. -/
theorem claim_C4_counterexample :
    ¬ ((actions.dismiss "x" [entryWith "x", entryWith "x"]).length
        = ([entryWith "x", entryWith "x"] : ModalStack).length - 1) := by
  decide

/-- C4 amended: on every stack whose live ids are pairwise distinct (the
intended stack invariant), `dismiss(id)` removes exactly one entry when an
entry with that id is present — the stack splits as `l₁ ++ e :: l₂` and
the result is `l₁ ++ l₂`, so the relative order of the remainder is
unchanged — removes zero entries when the id is absent, and is
idempotent. -/
theorem claim_C4_amended (stack : ModalStack) (i : String)
    (hnd : (stackIds stack).Nodup) :
    (∀ e ∈ stack, e.id = i →
        ∃ l₁ l₂, stack = l₁ ++ e :: l₂ ∧ actions.dismiss i stack = l₁ ++ l₂) ∧
    (i ∉ stackIds stack → actions.dismiss i stack = stack) ∧
    actions.dismiss i (actions.dismiss i stack) = actions.dismiss i stack := by
  refine ⟨?_, ?_, ?_⟩
  · intro e he heid
    obtain ⟨l₁, l₂, rfl⟩ := List.append_of_mem he
    refine ⟨l₁, l₂, rfl, ?_⟩
    have hmid : e.id ∉ stackIds (l₁ ++ l₂) := by
      have := List.nodup_middle.mp
        (show ((l₁.map (·.id)) ++ e.id :: (l₂.map (·.id))).Nodup by
          simpa [stackIds] using hnd)
      rw [List.nodup_cons] at this
      simpa [stackIds] using this.1
    unfold actions.dismiss
    rw [List.filter_append, List.filter_cons]
    have he_false : (e.id != i) = false := by simp [heid]
    rw [he_false]
    simp only [Bool.false_eq_true, if_false]
    have h₁ : l₁.filter (fun item => item.id != i) = l₁ :=
      List.filter_eq_self.mpr (fun a ha => by
        have : a.id ≠ e.id := by
          intro hc
          exact hmid (by
            rw [← hc]
            exact List.mem_map.mpr ⟨a, List.mem_append.mpr (Or.inl ha), rfl⟩)
        simp [heid ▸ this])
    have h₂ : l₂.filter (fun item => item.id != i) = l₂ :=
      List.filter_eq_self.mpr (fun a ha => by
        have : a.id ≠ e.id := by
          intro hc
          exact hmid (by
            rw [← hc]
            exact List.mem_map.mpr ⟨a, List.mem_append.mpr (Or.inr ha), rfl⟩)
        simp [heid ▸ this])
    rw [h₁, h₂]
  · intro habs
    exact List.filter_eq_self.mpr (fun a ha => by
      have : a.id ≠ i := by
        intro hc
        exact habs (List.mem_map.mpr ⟨a, ha, hc⟩)
      simp [this])
  · show List.filter _ (List.filter _ stack) = List.filter _ stack
    exact List.filter_eq_self.mpr (fun a ha => (List.mem_filter.mp ha).2)

/-- C4 witness: the amended statement applied to a concrete two-entry stack
with distinct ids. -/
theorem claim_C4_witness :
    (stackIds [entryWith "a", entryWith "b"]).Nodup ∧
    actions.dismiss "a" (actions.dismiss "a" [entryWith "a", entryWith "b"])
      = actions.dismiss "a" [entryWith "a", entryWith "b"] :=
  ⟨by decide, (claim_C4_amended [entryWith "a", entryWith "b"] "a" (by decide)).2.2⟩

/-- C5: for every sequence of `present` calls from one caller scope with no
explicit id, the stack lists the presented descriptors in presentation
order, the generated ids are exactly `{scope}-0`, `{scope}-1`, … — all
sharing the scope prefix `{scope}-` — and they are pairwise distinct. -/
theorem claim_C5_scope_ids (sid : String) (ps : List ModalProps) :
    (presentAll ⟨sid, 0⟩ ps []).2.map (·.toModalProps) = ps ∧
    stackIds (presentAll ⟨sid, 0⟩ ps []).2 =
      (List.range' 0 ps.length).map (fun k => (sid ++ "-") ++ toString k) ∧
    (stackIds (presentAll ⟨sid, 0⟩ ps []).2).Nodup := by
  rw [presentAll_eq sid ps 0 []]
  simp only [List.nil_append]
  refine ⟨buildEntries_map_props sid ps 0, ?_, ?_⟩
  · rw [buildEntries_ids sid ps 0]
    rfl
  · rw [buildEntries_ids sid ps 0]
    exact List.Nodup.map (fun a b hab => mkModalId_inj hab)
      (List.nodup_range' 0 ps.length)

/-- C6: `dismissTop` on a stack of size n ≥ 1 (written `stack ++ [x]`)
yields the original stack minus its last element, of size n − 1; on the
empty stack it is a no-op. -/
theorem claim_C6_dismissTop (stack : ModalStack) (x : ModalEntry) :
    actions.dismissTop (stack ++ [x]) = stack ∧
    (actions.dismissTop (stack ++ [x])).length = (stack ++ [x]).length - 1 ∧
    actions.dismissTop ([] : ModalStack) = [] := by
  refine ⟨List.dropLast_concat, ?_, rfl⟩
  simp [actions.dismissTop]

/-- C7: `dismissAll` yields the empty stack from every prior stack, and the
route-change effect (which runs `dismissAll` on every pathname change)
leaves the stack empty after any route change. -/
theorem claim_C7_dismissAll_route_change (stack : ModalStack) :
    actions.dismissAll stack = [] ∧ onPathnameChange stack = [] :=
  ⟨rfl, rfl⟩

/-- C8: every store operation is a total function over the current list —
each is a plain function on `ModalStack`, defined on all inputs, mirroring
the throw-free TypeScript bodies — and every mutation builds a new list
value: `present` returns the old list with one entry appended (the
pre-existing descriptor records untouched), `dismiss` and `dismissTop`
return sublists of the input (the surviving descriptor records are the
identical records, in unchanged relative order), and `dismissAll` returns
the empty list. -/
theorem claim_C8_total_pure_ops (scope : ScopeState) (props : ModalProps)
    (pid : Option String) (stack : ModalStack) (i : String) :
    (present scope props pid stack).stack =
      stack ++
        [ModalEntry.mk props (pid.getD (mkModalId scope.id scope.currentCount))] ∧
    (actions.dismiss i stack).Sublist stack ∧
    (actions.dismissTop stack).Sublist stack ∧
    actions.dismissAll stack = [] :=
  ⟨rfl, List.filter_sublist stack, List.dropLast_sublist stack, rfl⟩

/-- C9 counterexample: a descriptor rendered through a
`CustomModalComponent` whose `clickOutsideToDismiss` is falsy — in that
branch the backdrop `onClick` is `undefined` (line 232) — so a backdrop
click leaves the stack unchanged but issues zero animation commands: the
noticed pulse is not invoked at all, refuting "invokes the noticed pulse
exactly once" for every descriptor with `clickOutsideToDismiss` false. -/
theorem claim_C9_counterexample :
    truthy (customEntry "c").clickOutsideToDismiss = false ∧
    (Modal.backdropClickDesktop (customEntry "c") false
        [customEntry "c"] []).1 = [customEntry "c"] ∧
    (Modal.backdropClickDesktop (customEntry "c") false
        [customEntry "c"] []).2.2 = [] :=
  ⟨rfl, rfl, rfl⟩

/-- C9 amended: for every descriptor with `clickOutsideToDismiss` falsy, a
desktop backdrop click leaves the stack unchanged and invokes no callback;
when the descriptor is rendered with the default chrome (no
`CustomModalComponent`) it invokes the noticed pulse exactly once — one
animation to scale 1.05 with duration 0.06, followed by the return to
scale 1 exactly when the component is still mounted when the continuation
runs, so the return step is never issued after unmount — while in the
`CustomModalComponent` branch no backdrop handler is attached and no pulse
is issued. -/
theorem claim_C9_amended (item : ModalEntry) (unmounted : Bool)
    (stack : ModalStack) (log : CloseLog)
    (h : truthy item.clickOutsideToDismiss = false) :
    (Modal.backdropClickDesktop item unmounted stack log).1 = stack ∧
    (Modal.backdropClickDesktop item unmounted stack log).2.1 = log ∧
    (item.CustomModalComponent = none →
      (Modal.backdropClickDesktop item unmounted stack log).2.2 =
        ⟨105 / 100, some (6 / 100)⟩ ::
          (if unmounted then [] else [⟨1, none⟩])) ∧
    (item.CustomModalComponent.isSome = true →
      (Modal.backdropClickDesktop item unmounted stack log).2.2 = []) := by
  unfold Modal.backdropClickDesktop
  by_cases hc : item.CustomModalComponent.isSome = true
  · rw [if_pos hc]
    unfold Modal.backdropClickCustom
    rw [if_neg (by simp [h])]
    refine ⟨rfl, rfl, ?_, fun _ => rfl⟩
    intro hnone
    rw [hnone] at hc
    simp at hc
  · rw [if_neg hc]
    unfold Modal.backdropClick
    rw [if_neg (by simp [h])]
    refine ⟨rfl, rfl, fun _ => ?_, fun hcc => absurd hcc hc⟩
    unfold Modal.noticeModal
    rfl

/-- C9 witness: the amended statement applied to a concrete default-chrome
descriptor with `clickOutsideToDismiss: false`, with the continuation
running after unmount — only the pulse command is issued. -/
theorem claim_C9_witness :
    truthy noDismissEntry.clickOutsideToDismiss = false ∧
    ((Modal.backdropClickDesktop noDismissEntry true [noDismissEntry] []).1 =
        [noDismissEntry] ∧
      (Modal.backdropClickDesktop noDismissEntry true [noDismissEntry] []).2.1 =
        [] ∧
      (noDismissEntry.CustomModalComponent = none →
        (Modal.backdropClickDesktop noDismissEntry true [noDismissEntry] []).2.2 =
          ⟨105 / 100, some (6 / 100)⟩ :: (if true then [] else [⟨1, none⟩])) ∧
      (noDismissEntry.CustomModalComponent.isSome = true →
        (Modal.backdropClickDesktop noDismissEntry true [noDismissEntry] []).2.2 =
          [])) :=
  ⟨rfl, claim_C9_amended noDismissEntry true [noDismissEntry] [] rfl⟩

/-- C10 counterexample: on desktop, two stacked descriptors rendered
through a `CustomModalComponent` both sit in the fixed `z-[20]` container —
the per-index `modalStyle` is not applied in that branch — so the rendered
z-indexes are [20, 20], not strictly increasing with stack index. -/
theorem claim_C10_counterexample :
    ¬ (((renderDrawerStack [customEntry "a", customEntry "b"] false 0).map
        (·.zIndex)).Pairwise (· < ·)) := by
  decide

/-- C10 amended: the renderer renders one presentation element per
descriptor, keyed by its id, in list order; on mobile every sheet gets
z-index 1000 plus the external sheet-stack length; and on desktop, for
descriptors rendered with the default chrome (no `CustomModalComponent`),
the z-indexes are 99 + index — strictly increasing with stack index. -/
theorem claim_C10_amended (stack : ModalStack) (d : Nat) :
    (∀ m : Bool, (renderDrawerStack stack m d).map (·.key) = stackIds stack) ∧
    (renderDrawerStack stack true d).map (·.zIndex) =
      List.replicate stack.length (1000 + d) ∧
    ((∀ e ∈ stack, e.CustomModalComponent = none) →
      (renderDrawerStack stack false d).map (·.zIndex) =
          List.range' 99 stack.length ∧
        ((renderDrawerStack stack false d).map (·.zIndex)).Pairwise (· < ·)) := by
  refine ⟨fun m => renderDrawerStack_keys stack m d, ?_, ?_⟩
  · unfold renderDrawerStack
    rw [List.map_map]
    exact render_z_mobile d stack 0
  · intro h
    have hz : (renderDrawerStack stack false d).map (·.zIndex) =
        List.range' 99 stack.length := by
      unfold renderDrawerStack
      rw [List.map_map]
      have := render_z_default d stack 0 h
      simpa using this
    exact ⟨hz, hz ▸ List.pairwise_lt_range' 99 stack.length⟩

/-- C10 witness: the amended statement applied to a concrete two-entry
default-chrome stack on desktop. -/
theorem claim_C10_witness :
    (∀ e ∈ ([entryWith "a", entryWith "b"] : ModalStack),
        e.CustomModalComponent = none) ∧
    ((renderDrawerStack [entryWith "a", entryWith "b"] false 0).map (·.zIndex) =
        List.range' 99 2 ∧
      ((renderDrawerStack [entryWith "a", entryWith "b"] false 0).map
        (·.zIndex)).Pairwise (· < ·)) :=
  ⟨by decide, (claim_C10_amended [entryWith "a", entryWith "b"] 0).2.2 (by decide)⟩

end DrawerStackSpec
